import Mathlib

/-!
Shallow embedding of the obsidian2confluence synchronization core
(`app/conflicts.py`, `app/state.py`, `app/client.py`, `app/sync.py`,
`app/links.py`, `app/models.py`) together with proofs about the
specified behaviour.

Modelling conventions:
* Python `datetime` values are modelled as `Int` timestamps; only their
  ordering is ever used by the code under study.
* Python `Optional[T]` is `Option T`; Python truthiness of an
  `Optional[int]` is `false` exactly on `none` and `some 0`, truthiness of
  an `Optional[str]` is `false` exactly on `none` and `some ""`, and
  `datetime` / dataclass / pydantic-model values are always truthy.
* Exceptions raised by remote lookups that the code catches are modelled
  by the lookup returning `none`.
-/

namespace O2C

/-- `app/state.py` dataclass `FileRecord`. -/
structure FileRecord where
  path : String
  sha256 : String
  lastSyncedAt : Option Int
  deriving DecidableEq, Repr

/-- `app/state.py` dataclass `PageRecord`. -/
structure PageRecord where
  pageId : String
  title : String
  parentPageId : Option String
  lastSeenVersion : Option Int
  lastSeenRemoteUpdatedAt : Option Int
  deriving DecidableEq, Repr

/-- `app/models.py` model `RemotePage`. -/
structure RemotePage where
  pageId : String
  title : String
  parentPageId : Option String
  version : Int
  lastUpdated : Option Int
  deriving DecidableEq, Repr

/-- `app/conflicts.py` `has_conflict`.  The nested `if` chain of the Python
function is translated clause by clause; the Python truthiness tests
`remote_page.version and page_record.last_seen_version` and
`remote_page.last_updated and page_record.last_seen_remote_updated_at`
become the explicit guards below. -/
def hasConflict (fileRecord : Option FileRecord) (pageRecord : Option PageRecord)
    (remotePage : Option RemotePage) (currentSha : String) : Bool :=
  match fileRecord, pageRecord, remotePage with
  | some f, some p, some r =>
    if currentSha = f.sha256 then false
    else
      let versionHit : Bool :=
        match p.lastSeenVersion with
        | some lsv => r.version != 0 && lsv != 0 && decide (r.version > lsv)
        | none => false
      let timeHit : Bool :=
        match r.lastUpdated, p.lastSeenRemoteUpdatedAt with
        | some ru, some pu => decide (ru > pu)
        | _, _ => false
      versionHit || timeHit
  | _, _, _ => false

/-- Modelled from the spec: the conflict condition as §4.3 words it, namely
a plain strict comparison on versions and timestamps with no guard on zero
or absent stored versions.  Used only to compare the spec against
`hasConflict`. -/
def specConflictCond (p : PageRecord) (r : RemotePage) : Bool :=
  (match p.lastSeenVersion with
   | some lsv => decide (r.version > lsv)
   | none => false) ||
  (match r.lastUpdated, p.lastSeenRemoteUpdatedAt with
   | some ru, some pu => decide (ru > pu)
   | _, _ => false)

/-- `app/state.py` dataclass `BindingRecord`. -/
structure BindingRecord where
  filePath : String
  pageId : String
  deriving DecidableEq, Repr

/-- `app/state.py` `StateStore.set_binding` over the `bindings` table, which
the schema declares as `file_path TEXT PRIMARY KEY, page_id TEXT UNIQUE`.
The SQL is `INSERT ... ON CONFLICT(file_path) DO UPDATE SET page_id =
excluded.page_id`: a primary-key collision on `file_path` turns into an
update of that row, while a collision on the `page_id UNIQUE` constraint
(not named by the ON CONFLICT clause, neither for the insert nor for the
update it performs) raises an integrity error and the transaction rolls
back, leaving the table unchanged.  The table is the association list, in
insertion order. -/
def setBinding (bs : List (String × String)) (filePath pageId : String) :
    Except String (List (String × String)) :=
  match bs.find? (fun e => decide (e.1 = filePath)) with
  | some _ =>
    if bs.any (fun e => decide (e.1 ≠ filePath) && decide (e.2 = pageId)) then
      Except.error "UNIQUE constraint failed: bindings.page_id"
    else
      Except.ok (bs.map (fun e => if e.1 = filePath then (filePath, pageId) else e))
  | none =>
    if bs.any (fun e => decide (e.2 = pageId)) then
      Except.error "UNIQUE constraint failed: bindings.page_id"
    else
      Except.ok (bs ++ [(filePath, pageId)])

/-- The `file_path TEXT PRIMARY KEY` invariant of the `bindings` table. -/
def pathUnique (bs : List (String × String)) : Prop :=
  bs.Pairwise (fun a b => a.1 ≠ b.1)

/-- The `page_id TEXT UNIQUE` invariant of the `bindings` table: no two
paths are bound to the same page id. -/
def pageIdUnique (bs : List (String × String)) : Prop :=
  bs.Pairwise (fun a b => a.2 ≠ b.2)

/-- What one attempt of `app/client.py` `ConfluenceClient._send_request`
observes: either the transport layer raises (`requests.RequestException`)
or an HTTP response with a status code and body arrives. -/
inductive Outcome
  | transportError (msg : String)
  | status (code : Nat) (body : String)
  deriving DecidableEq, Repr

/-- An HTTP response as far as the engine consumes it. -/
structure HttpResponse where
  statusCode : Nat
  body : String
  deriving DecidableEq, Repr

/-- `app/client.py` error taxonomy: `ConfluenceRetryableError` (a subclass
of `ConfluenceError`) versus a plain non-retryable `ConfluenceError`. -/
inductive ClientError
  | retryable (msg : String)
  | permanent (msg : String)
  deriving DecidableEq, Repr

/-- Whether tenacity's `retry_if_exception_type((ConfluenceRetryableError,
requests.RequestException))` classifies the raised error as retryable.
`_send_request` rewraps every `requests.RequestException` into a
`ConfluenceRetryableError` before it escapes, so the retryable class is
exactly `ClientError.retryable`. -/
def ClientError.isRetryable : ClientError → Bool
  | retryable _ => true
  | permanent _ => false

/-- `app/client.py` `ConfluenceClient._send_request` for one attempt:
transport errors become `ConfluenceRetryableError`; statuses 429, 502, 503
and 504 raise `ConfluenceRetryableError`; any other status `>= 400` raises
a non-retryable `ConfluenceError`; otherwise the response is returned.
Error messages keep only the status text (the URL and payload of the
Python message are not modelled). -/
def sendRequest : Outcome → Except ClientError HttpResponse
  | Outcome.transportError m => Except.error (ClientError.retryable m)
  | Outcome.status c b =>
    if c = 429 ∨ c = 502 ∨ c = 503 ∨ c = 504 then
      Except.error (ClientError.retryable ("Rate limit " ++ toString c))
    else if 400 ≤ c then
      Except.error (ClientError.permanent ("HTTP " ++ toString c))
    else
      Except.ok ⟨c, b⟩

/-- Whether an attempt outcome is a transient failure (transport error or
status 429/502/503/504), i.e. raises a retryable error. -/
def isTransient (o : Outcome) : Bool :=
  match sendRequest o with
  | Except.error e => e.isRetryable
  | Except.ok _ => false

/-- Tenacity `Retrying(stop=stop_after_attempt(5), retry=retry_if_...,
reraise=True)` as configured in `ConfluenceClient.__init__`, driven by an
oracle giving each attempt's outcome: run attempts while the raised error
is retryable and attempts remain, then re-raise the last error unchanged.
Returns the number of attempts made together with the final result.
The backoff waits (`wait_exponential_jitter(initial=1, max=30)`) only
schedule the attempts in time and are not modelled. -/
def attemptFrom (oracle : Nat → Outcome) (i : Nat) :
    Nat → Nat × Except ClientError HttpResponse
  | 0 => (0, Except.error (ClientError.retryable "no attempts"))
  | remaining + 1 =>
    match sendRequest (oracle i) with
    | Except.ok resp => (1, Except.ok resp)
    | Except.error e =>
      if e.isRetryable && remaining != 0 then
        let r := attemptFrom oracle (i + 1) remaining
        (r.1 + 1, r.2)
      else (1, Except.error e)

/-- One client request under the retry policy: up to 5 total attempts. -/
def requestWithRetry (oracle : Nat → Outcome) :
    Nat × Except ClientError HttpResponse :=
  attemptFrom oracle 0 5

/-- `app/client.py` `ConfluenceClient.update_labels` up to the point where
a request is (or is not) issued: `labels = [l for l in set(labels) if l]`
deduplicates and drops empty strings, `if not labels: return` skips the
request, and otherwise the payload `[{"prefix": "global", "name": l}]` is
POSTed.  `none` models the early return with no request; `some payload`
models the request body, each item as the pair (prefix, name).  Python's
`set` iterates in an unspecified order; `List.dedup` stands in for it. -/
def updateLabelsRequest (labels : List String) : Option (List (String × String)) :=
  let kept := labels.dedup.filter (fun l => decide (l ≠ ""))
  if kept.isEmpty then none
  else some (kept.map (fun l => ("global", l)))

/-- `app/models.py` model `FrontmatterMetadata`. -/
structure FrontmatterMetadata where
  title : Option String
  labels : List String
  parent : Option String
  exclude : Bool
  pageId : Option String
  deriving DecidableEq, Repr

/-- `app/models.py` model `VaultNote`.  The absolute `path` field is not
modelled; `relativePath` is the state-store key and the source of the
folder chain. -/
structure VaultNote where
  relativePath : String
  title : String
  frontmatter : FrontmatterMetadata
  content : String
  sha256 : String
  deriving DecidableEq, Repr

/-- The whitespace class of the regex `\s` in `app/links.py`
`normalize_title`, restricted to ASCII. -/
def pyIsSpace (c : Char) : Bool :=
  c = ' ' || c = '\t' || c = '\n' || c = '\r' || c = '\x0b' || c = '\x0c'

/-- Python `str.strip()` on a character list. -/
def stripChars (l : List Char) : List Char :=
  ((l.dropWhile pyIsSpace).reverse.dropWhile pyIsSpace).reverse

/-- The regex substitution `re.sub(r"\s+", " ", s)`: every maximal run of
whitespace becomes a single space. -/
def collapseWs : List Char → List Char
  | [] => []
  | c :: rest =>
    if pyIsSpace c then
      ' ' :: collapseWs (rest.dropWhile pyIsSpace)
    else
      c :: collapseWs rest
termination_by l => l.length
decreasing_by
  · simp only [List.length_cons]
    have hle := (List.dropWhile_sublist pyIsSpace (l := rest)).length_le
    omega
  · simp

/-- `app/links.py` `normalize_title`: strip, collapse inner whitespace,
lowercase (ASCII lowering models Python `str.lower`). -/
def normalizeTitle (t : String) : String :=
  String.mk ((collapseWs (stripChars t.data)).map Char.toLower)

/-- One Python dict assignment `d[key] = note` on an insertion-ordered
association list: an existing key keeps its position and gets the new
value, a new key is appended. -/
def insertTitle (m : List (String × VaultNote)) (key : String) (note : VaultNote) :
    List (String × VaultNote) :=
  if m.any (fun e => decide (e.1 = key)) then
    m.map (fun e => if e.1 = key then (key, note) else e)
  else
    m ++ [(key, note)]

/-- The `_by_title` dict built by `LinkIndex.__init__`:
`for note in notes: self._by_title[normalize_title(note.title)] = note`. -/
def buildByTitle (notes : List VaultNote) : List (String × VaultNote) :=
  notes.foldl (fun m note => insertTitle m (normalizeTitle note.title) note) []

/-- Dict lookup on the association-list model. -/
def lookupTitle (m : List (String × VaultNote)) (key : String) : Option VaultNote :=
  (m.find? (fun e => decide (e.1 = key))).map (fun e => e.2)

/-- `app/links.py` `LinkIndex.get_by_title`. -/
def getByTitle (m : List (String × VaultNote)) (title : String) : Option VaultNote :=
  lookupTitle m (normalizeTitle title)

/-- A durable write performed by the engine: the remote write operations of
`ConfluenceClient` and the `StateStore` writes.  Remote reads (`get_page`,
`find_page`) are not effects; the claims under study only constrain
writes. -/
inductive Effect
  | remoteCreatePage (title : String)
  | remoteUpdatePage (pageId : String)
  | remoteUpdateLabels (pageId : String)
  | remoteUploadAttachment (pageId filename : String)
  | stateUpsertFile (path : String)
  | stateUpsertPage (pageId : String)
  | stateSetBinding (path pageId : String)
  deriving DecidableEq, Repr

/-- The slice of `app/config.py` `Settings` the hierarchy manager reads.
The space key is fixed inside `ClientEnv` below. -/
structure Settings where
  rootPageTitle : String
  deriving DecidableEq, Repr

/-- The remote service as observed through `ConfluenceClient` during one
run, with the run's space key fixed.  `getPage` returns `none` when the
fetch raises (the engine catches those lookups); `findPage` and the write
operations are modelled as succeeding, i.e. the run under study has no
fatal remote error.  `rootPage` is what `ensure_root_page` returns. -/
structure ClientEnv where
  getPage : String → Option RemotePage
  findPage : String → Option String → Option RemotePage
  createPage : String → String → Option String → List String → RemotePage
  updatePage : String → String → String → Option String → List String → Int → RemotePage
  rootPage : RemotePage

/-- The mutable fields of `app/sync.py` `PageHierarchyManager`: the
run-scoped `(title, parent_id) → page_id` cache, the dry-run synthetic-id
counter, and the memoized root page. -/
structure PHMState where
  cache : List ((String × Option String) × String)
  dryCounter : Nat
  rootPage : Option RemotePage
  deriving DecidableEq, Repr

/-- Cache lookup (Python `key in self._cache` / `self._cache[key]`). -/
def cacheLookup (s : PHMState) (k : String × Option String) : Option String :=
  (s.cache.find? (fun e => decide (e.1 = k))).map (fun e => e.2)

/-- Cache insertion; `_ensure_page` and `_ensure_root` only insert on a
miss, so prepending never shadows a live entry. -/
def cacheInsert (s : PHMState) (k : String × Option String) (v : String) : PHMState :=
  { s with cache := (k, v) :: s.cache }

/-- `title.lower().replace(" ", "-")` from `_synthetic_id`. -/
def slugify (t : String) : String :=
  String.map (fun c => if c = ' ' then '-' else c.toLower) t

/-- `PageHierarchyManager._synthetic_id`: bump the counter and build
`dryrun-<counter>-<slug>`. -/
def syntheticId (s : PHMState) (title : String) : String × PHMState :=
  let c := s.dryCounter + 1
  ("dryrun-" ++ toString c ++ "-" ++ slugify title, { s with dryCounter := c })

/-- The label write hidden inside `create_page`/`update_page`: they call
`update_labels`, which issues a request only per `updateLabelsRequest`. -/
def labelEffects (pageId : String) (labels : List String) : List Effect :=
  match updateLabelsRequest labels with
  | some _ => [Effect.remoteUpdateLabels pageId]
  | none => []

/-- Result of `_ensure_page`: the resolved id, the manager state after the
call, how many remote client calls were made, and the writes performed. -/
structure EnsureOut where
  pid : String
  st : PHMState
  calls : Nat
  effects : List Effect
  deriving Repr

/-- `app/sync.py` `PageHierarchyManager._ensure_page`: cache hit returns
immediately; a miss in dry-run synthesizes and caches an id with no remote
call; a miss in real mode finds or creates the page remotely, records it
in the state store and caches it. -/
def ensurePage (env : ClientEnv) (s : PHMState) (title : String)
    (parentId : Option String) (dryRun : Bool) : EnsureOut :=
  match cacheLookup s (title, parentId) with
  | some pid => ⟨pid, s, 0, []⟩
  | none =>
    if dryRun then
      let sp := syntheticId s title
      ⟨sp.1, cacheInsert sp.2 (title, parentId) sp.1, 0, []⟩
    else
      match env.findPage title parentId with
      | some existing =>
        ⟨existing.pageId, cacheInsert s (title, parentId) existing.pageId, 1,
          [Effect.stateUpsertPage existing.pageId]⟩
      | none =>
        let newPage := env.createPage title "<p>Folder placeholder</p>" parentId []
        ⟨newPage.pageId, cacheInsert s (title, parentId) newPage.pageId, 2,
          Effect.remoteCreatePage title :: labelEffects newPage.pageId [] ++
            [Effect.stateUpsertPage newPage.pageId]⟩

/-- Result of `_ensure_root`. -/
structure RootOut where
  page : RemotePage
  st : PHMState
  calls : Nat
  effects : List Effect
  deriving Repr

/-- `app/sync.py` `PageHierarchyManager._ensure_root`: memoized; in dry-run
builds a synthetic root with no remote call; in real mode delegates to
`ensure_root_page`, records the result into the state store, and caches
it. -/
def ensureRoot (env : ClientEnv) (settings : Settings) (s : PHMState)
    (dryRun : Bool) : RootOut :=
  match s.rootPage with
  | some r => ⟨r, s, 0, []⟩
  | none =>
    if dryRun then
      let sp := syntheticId s "root"
      let page : RemotePage := ⟨sp.1, settings.rootPageTitle, none, 1, none⟩
      ⟨page, { cacheInsert sp.2 (page.title, none) page.pageId with rootPage := some page },
        0, []⟩
    else
      let root := env.rootPage
      ⟨root,
        { cacheInsert s (root.title, root.parentPageId) root.pageId with
            rootPage := some root },
        1, [Effect.stateUpsertPage root.pageId]⟩

/-- Result of resolving a parent chain. -/
structure StepOut where
  pid : Option String
  st : PHMState
  calls : Nat
  effects : List Effect
  deriving Repr

/-- The `for title in title_chain` loop of `resolve_parent`, threading the
current parent id through `_ensure_page`. -/
def chainFold (env : ClientEnv) (s : PHMState) (parentId : Option String)
    (chain : List String) (dryRun : Bool) : StepOut :=
  match chain with
  | [] => ⟨parentId, s, 0, []⟩
  | t :: rest =>
    let r := ensurePage env s t parentId dryRun
    let r2 := chainFold env r.st (some r.pid) rest dryRun
    ⟨r2.pid, r2.st, r.calls + r2.calls, r.effects ++ r2.effects⟩

/-- `PageHierarchyManager._folder_chain`: the folder segments of the note's
relative path, i.e. `Path(relative_path).parts[:-1]`. -/
def folderChain (note : VaultNote) : List String :=
  (note.relativePath.splitOn "/").dropLast

/-- The title chain of `resolve_parent`: a truthy frontmatter parent gives
a single-element chain, otherwise the folder chain is used. -/
def titleChain (note : VaultNote) : List String :=
  match note.frontmatter.parent with
  | some p => if p = "" then folderChain note else [p]
  | none => folderChain note

/-- `app/sync.py` `PageHierarchyManager.resolve_parent`. -/
def resolveParent (env : ClientEnv) (settings : Settings) (s : PHMState)
    (note : VaultNote) (dryRun : Bool) : StepOut :=
  let root := ensureRoot env settings s dryRun
  let r := chainFold env root.st (some root.page.pageId) (titleChain note) dryRun
  ⟨r.pid, r.st, root.calls + r.calls, root.effects ++ r.effects⟩

/-- The three tables of `app/state.py` `StateStore`, as read by the engine
during one note (association lists keyed by path / page id). -/
structure StoreState where
  files : List (String × FileRecord)
  pages : List (String × PageRecord)
  bindings : List (String × String)
  deriving DecidableEq, Repr

/-- `StateStore.get_file`. -/
def getFile (store : StoreState) (path : String) : Option FileRecord :=
  (store.files.find? (fun e => decide (e.1 = path))).map (fun e => e.2)

/-- `StateStore.get_page`. -/
def getPageRec (store : StoreState) (pid : String) : Option PageRecord :=
  (store.pages.find? (fun e => decide (e.1 = pid))).map (fun e => e.2)

/-- `StateStore.get_binding_for_path`. -/
def getBindingForPath (store : StoreState) (path : String) : Option BindingRecord :=
  (store.bindings.find? (fun e => decide (e.1 = path))).map (fun e => ⟨e.1, e.2⟩)

/-- `StateStore.get_binding_for_page`. -/
def getBindingForPage (store : StoreState) (pid : String) : Option BindingRecord :=
  (store.bindings.find? (fun e => decide (e.2 = pid))).map (fun e => ⟨e.1, e.2⟩)

/-- Truthiness of `note.frontmatter.page_id` in `_lookup_target_page`. -/
def fmPageId (note : VaultNote) : Option String :=
  match note.frontmatter.pageId with
  | some p => if p = "" then none else some p
  | none => none

/-- `note.frontmatter.title or note.title`, with Python truthiness on the
optional frontmatter title. -/
def noteTitle (note : VaultNote) : String :=
  match note.frontmatter.title with
  | some t => if t = "" then note.title else t
  | none => note.title

/-- `app/sync.py` `SyncEngine._lookup_target_page`: frontmatter page id
first (failed fetch logged and fallen through), then the stored binding
(failed fetch fallen through to the search), then `find_page` by title
scoped to the resolved parent. -/
def lookupTargetPage (env : ClientEnv) (store : StoreState) (note : VaultNote)
    (parentId : Option String) : Option RemotePage × Option BindingRecord :=
  let viaBinding : Option RemotePage × Option BindingRecord :=
    match getBindingForPath store note.relativePath with
    | some b =>
      match env.getPage b.pageId with
      | some page => (some page, some b)
      | none => (env.findPage (noteTitle note) parentId, some b)
    | none => (env.findPage (noteTitle note) parentId, none)
  match fmPageId note with
  | some pid =>
    match env.getPage pid with
    | some page => (some page, getBindingForPage store page.pageId)
    | none => viaBinding
  | none => viaBinding

/-- The external collaborators of §6 (link rewriting over the index,
local-image discovery, image-target rewriting, markdown-to-storage
conversion), abstracted as the pure functions the engine composes. -/
structure Pipeline where
  rewriteContent : VaultNote → String
  findImages : String → List String
  rewriteImageTargets : String → String
  render : String → String

/-- Result of `_create_page` / `_update_page`: the remote page they return
(absent in dry-run) and the writes performed. -/
structure WriteOut where
  page : Option RemotePage
  effects : List Effect
  deriving Repr

/-- `app/sync.py` `SyncEngine._create_page`: in dry-run log and return
`None` with no writes; otherwise create the page (which also posts labels),
record file/page state, set the binding, and upload any images. -/
def createPageE (env : ClientEnv) (note : VaultNote) (parentId : Option String)
    (storageBody : String) (labels : List String) (images : List String)
    (dryRun : Bool) : WriteOut :=
  if dryRun then ⟨none, []⟩
  else
    let page := env.createPage (noteTitle note) storageBody parentId labels
    ⟨some page,
      Effect.remoteCreatePage (noteTitle note) :: labelEffects page.pageId labels ++
        [Effect.stateUpsertFile note.relativePath, Effect.stateUpsertPage page.pageId,
          Effect.stateSetBinding note.relativePath page.pageId] ++
        images.map (fun i => Effect.remoteUploadAttachment page.pageId i)⟩

/-- `app/sync.py` `SyncEngine._update_page`: in dry-run log and return
`None` with no writes; otherwise update the page with the optimistic
version bump `remote_page.version + 1` (which also posts labels), record
file/page state, set the binding, and upload any images. -/
def updatePageE (env : ClientEnv) (note : VaultNote) (remotePage : RemotePage)
    (parentId : Option String) (storageBody : String) (labels : List String)
    (images : List String) (dryRun : Bool) : WriteOut :=
  if dryRun then ⟨none, []⟩
  else
    let page := env.updatePage remotePage.pageId (noteTitle note) storageBody parentId
      labels (remotePage.version + 1)
    ⟨some page,
      Effect.remoteUpdatePage remotePage.pageId :: labelEffects page.pageId labels ++
        [Effect.stateUpsertFile note.relativePath, Effect.stateUpsertPage page.pageId,
          Effect.stateSetBinding note.relativePath page.pageId] ++
        images.map (fun i => Effect.remoteUploadAttachment page.pageId i)⟩

/-- `app/models.py` enum `SyncAction`. -/
inductive SyncAction
  | create
  | update
  | skip
  | conflict
  deriving DecidableEq, Repr

/-- `app/models.py` model `SyncPlanEntry`. -/
structure SyncPlanEntry where
  note : VaultNote
  action : SyncAction
  targetPageId : Option String
  parentPageId : Option String
  reason : Option String
  labels : List String
  deriving DecidableEq, Repr

/-- `app/models.py` model `ConflictRecord`; the wall-clock `detected_at`
field is not modelled. -/
structure ConflictRecordM where
  filePath : String
  pageId : String
  reason : String
  deriving DecidableEq, Repr

/-- Result of `_process_note`: the plan entry, the optional conflict
record, the hierarchy-manager state after the note, and the writes
performed while processing the note. -/
structure ProcessOut where
  entry : SyncPlanEntry
  conflict : Option ConflictRecordM
  st : PHMState
  effects : List Effect

/-- `app/sync.py` `SyncEngine._process_note`, one note of the run loop:
excluded notes short-circuit to SKIP; otherwise resolve the parent, look
up the target page, run the conflict detector, skip unchanged notes, and
otherwise rewrite links, discover images, convert the body and update or
create the remote page.  The store argument is the state as read during
this note. -/
def processNote (env : ClientEnv) (pipe : Pipeline) (settings : Settings)
    (store : StoreState) (s : PHMState) (note : VaultNote) (dryRun : Bool) :
    ProcessOut :=
  if note.frontmatter.exclude then
    ⟨⟨note, SyncAction.skip, none, none, some "Frontmatter exclude flag",
        note.frontmatter.labels⟩, none, s, []⟩
  else
    let pr := resolveParent env settings s note dryRun
    let parentId := pr.pid
    let targetPage := (lookupTargetPage env store note parentId).1
    let pageRecord := match targetPage with
      | some t => getPageRec store t.pageId
      | none => none
    let fileRecord := getFile store note.relativePath
    match targetPage with
    | some target =>
      if hasConflict fileRecord pageRecord (some target) note.sha256 then
        ⟨⟨note, SyncAction.conflict, some target.pageId, parentId,
            some "Remote page changed; manual review required",
            note.frontmatter.labels⟩,
          some ⟨note.relativePath, target.pageId, "Remote page changed since last sync"⟩,
          pr.st, pr.effects⟩
      else if (match fileRecord with
          | some f => decide (f.sha256 = note.sha256)
          | none => false) then
        ⟨⟨note, SyncAction.skip, some target.pageId, parentId,
            some "No changes detected", note.frontmatter.labels⟩,
          none, pr.st, pr.effects⟩
      else
        let rewritten := pipe.rewriteContent note
        let images := pipe.findImages rewritten
        let body := pipe.render (pipe.rewriteImageTargets rewritten)
        let w := updatePageE env note target parentId body note.frontmatter.labels
          images dryRun
        ⟨⟨note, SyncAction.update,
            some (match w.page with | some u => u.pageId | none => target.pageId),
            parentId, none, note.frontmatter.labels⟩,
          none, pr.st, pr.effects ++ w.effects⟩
    | none =>
      let rewritten := pipe.rewriteContent note
      let images := pipe.findImages rewritten
      let body := pipe.render (pipe.rewriteImageTargets rewritten)
      let w := createPageE env note parentId body note.frontmatter.labels images dryRun
      ⟨⟨note, SyncAction.create, Option.map (fun p => p.pageId) w.page, parentId,
          none, note.frontmatter.labels⟩,
        none, pr.st, pr.effects ++ w.effects⟩

/-- A concrete remote page bound to the sample note below. -/
def cexTarget : RemotePage := ⟨"X", "Note", some "D", 3, none⟩

/-- A sample note with no frontmatter overrides. -/
def cexNote : VaultNote := ⟨"docs/note.md", "Note", ⟨none, [], none, false, none⟩, "body", "h1"⟩

/-- A stored file record for the sample note with a matching hash. -/
def cexFile : FileRecord := ⟨"docs/note.md", "h1", none⟩

/-- A store with the sample file record and the path bound to page `X`
(but no stored page record). -/
def cexStore : StoreState := ⟨[("docs/note.md", cexFile)], [], [("docs/note.md", "X")]⟩

/-- A concrete remote environment: page `X` fetchable, the folder page
`docs` findable under the root `R`, root resolvable. -/
def cexEnv : ClientEnv where
  getPage := fun pid => if pid = "X" then some cexTarget else none
  findPage := fun t p => if t = "docs" ∧ p = some "R" then some ⟨"D", "docs", some "R", 1, none⟩ else none
  createPage := fun t _ p _ => ⟨"new", t, p, 1, none⟩
  updatePage := fun pid t _ p _ v => ⟨pid, t, p, v, none⟩
  rootPage := ⟨"R", "Vault Root", none, 1, none⟩

/-- A trivial content pipeline for the concrete runs. -/
def cexPipe : Pipeline := ⟨fun n => n.content, fun _ => [], id, id⟩

/-- Concrete settings naming the root page. -/
def cexSettings : Settings := ⟨"Vault Root"⟩

/-- A fresh hierarchy-manager state. -/
def cexPHM : PHMState := ⟨[], 0, none⟩

/-- Helper: a hash match makes `hasConflict` false whatever the rest says. -/
theorem hasConflict_of_hash_eq (f : FileRecord) (pr : Option PageRecord)
    (rp : Option RemotePage) (h : String) (hh : h = f.sha256) :
    hasConflict (some f) pr rp h = false := by
  cases pr <;> cases rp <;> simp [hasConflict, hh]

/-- Helper: absence of any record makes `hasConflict` false. -/
theorem hasConflict_of_absent (fr : Option FileRecord) (pr : Option PageRecord)
    (rp : Option RemotePage) (h : String)
    (habs : fr = none ∨ pr = none ∨ rp = none) :
    hasConflict fr pr rp h = false := by
  cases fr <;> cases pr <;> cases rp <;> simp [hasConflict]
  all_goals simp at habs

/-- Helper: the retry loop never exceeds its attempt budget. -/
theorem attemptFrom_le (oracle : Nat → Outcome) :
    ∀ (remaining i : Nat), (attemptFrom oracle i remaining).1 ≤ remaining := by
  intro remaining
  induction remaining with
  | zero => intro i; simp [attemptFrom]
  | succ r ih =>
    intro i
    unfold attemptFrom
    cases sendRequest (oracle i) with
    | ok resp => simp
    | error e =>
      by_cases hb : (e.isRetryable && r != 0) = true
      · simp only [hb, if_pos]
        have := ih (i + 1)
        omega
      · simp only [hb, if_neg, Bool.false_eq_true, not_false_eq_true]
        simp

/-- Helper: when every attempt in the window fails transiently, the loop
uses the whole budget and re-raises the last error unchanged. -/
theorem attemptFrom_all_transient (oracle : Nat → Outcome) :
    ∀ (remaining i : Nat), 0 < remaining →
      (∀ j, j < remaining → isTransient (oracle (i + j)) = true) →
      ∃ e, sendRequest (oracle (i + remaining - 1)) = Except.error e ∧
        e.isRetryable = true ∧
        attemptFrom oracle i remaining = (remaining, Except.error e) := by
  intro remaining
  induction remaining with
  | zero => intro i h; omega
  | succ r ih =>
    intro i _ hall
    have h0 : isTransient (oracle i) = true := by
      have := hall 0 (by omega)
      simpa using this
    unfold isTransient at h0
    cases hsend : sendRequest (oracle i) with
    | ok resp => rw [hsend] at h0; simp at h0
    | error e =>
      rw [hsend] at h0
      replace h0 : e.isRetryable = true := h0
      rcases Nat.eq_zero_or_pos r with hr | hr
      · subst hr
        refine ⟨e, by simpa using hsend, h0, ?_⟩
        unfold attemptFrom
        rw [hsend]
        simp [h0]
      · obtain ⟨e', he'1, he'2, he'3⟩ := ih (i + 1) hr (by
          intro j hj
          have := hall (j + 1) (by omega)
          have harith : i + 1 + j = i + (j + 1) := by omega
          rw [harith]
          exact this)
        refine ⟨e', ?_, he'2, ?_⟩
        · have harith : i + 1 + r - 1 = i + (r + 1) - 1 := by omega
          rw [harith] at he'1
          exact he'1
        · unfold attemptFrom
          rw [hsend]
          have hb : (e.isRetryable && r != 0) = true := by
            rw [h0, Bool.true_and, bne_iff_ne]
            omega
          simp [hb, he'3]

/-- Claim C1 (counterexample): with all three records present and a changed
hash, `hasConflict` disagrees with the spec's plain strict-comparison
condition: for a stored last-seen version `0` and remote version `1` the
spec condition holds but `hasConflict` is false. -/
theorem hasConflict_spec_iff_cex :
    hasConflict (some ⟨"n.md", "aaa", none⟩) (some ⟨"1", "T", none, some 0, none⟩)
        (some ⟨"1", "T", none, 1, none⟩) "bbb" = false ∧
      specConflictCond ⟨"1", "T", none, some 0, none⟩ ⟨"1", "T", none, 1, none⟩ = true ∧
      "bbb" ≠ "aaa" := by
  refine ⟨rfl, rfl, ?_⟩
  decide

/-- Claim C1 (amended): with all three records present and the current hash
different from the stored hash, `hasConflict` is true iff either the stored
last-seen version is present and both it and the remote version are nonzero
with the remote version strictly greater, or both timestamps are present
with the remote one strictly greater; equal versions or timestamps never
conflict. -/
theorem hasConflict_present_changed_iff (f : FileRecord) (p : PageRecord)
    (r : RemotePage) (h : String) (hne : h ≠ f.sha256) :
    hasConflict (some f) (some p) (some r) h = true ↔
      ((∃ lsv, p.lastSeenVersion = some lsv ∧ r.version ≠ 0 ∧ lsv ≠ 0 ∧ r.version > lsv) ∨
        (∃ ru pu, r.lastUpdated = some ru ∧ p.lastSeenRemoteUpdatedAt = some pu ∧ ru > pu)) := by
  obtain ⟨pid, pt, pp, lsv, lsru⟩ := p
  obtain ⟨rid, rt, rp, rv, rlu⟩ := r
  cases lsv <;> cases rlu <;> cases lsru <;>
    simp [hasConflict, hne] <;> tauto

/-- Claim C1 witness: the amended statement instantiated at stored
last-seen version 3 versus remote version 4 yields a conflict
(the spec's conflict-positivity example). -/
theorem hasConflict_present_changed_iff_witness :
    hasConflict (some ⟨"n.md", "aaa", none⟩) (some ⟨"1", "T", none, some 3, none⟩)
        (some ⟨"1", "T", none, 4, none⟩) "bbb" = true :=
  (hasConflict_present_changed_iff ⟨"n.md", "aaa", none⟩ ⟨"1", "T", none, some 3, none⟩
      ⟨"1", "T", none, 4, none⟩ "bbb" (by decide)).mpr
    (Or.inl ⟨3, rfl, by decide, by decide, by decide⟩)

/-- Claim C2: `hasConflict` is false whenever any of the three records is
absent, and false whenever the current hash equals the stored file hash,
regardless of all remote version or timestamp values. -/
theorem hasConflict_absent_or_unchanged_false (fr : Option FileRecord)
    (pr : Option PageRecord) (rp : Option RemotePage) (h : String)
    (hcond : fr = none ∨ pr = none ∨ rp = none ∨ ∃ f, fr = some f ∧ h = f.sha256) :
    hasConflict fr pr rp h = false := by
  rcases hcond with h1 | h1 | h1 | ⟨f, hf, hh⟩
  · exact hasConflict_of_absent fr pr rp h (Or.inl h1)
  · exact hasConflict_of_absent fr pr rp h (Or.inr (Or.inl h1))
  · exact hasConflict_of_absent fr pr rp h (Or.inr (Or.inr h1))
  · subst hf; exact hasConflict_of_hash_eq f pr rp h hh

/-- Claim C2 witness: an unchanged hash yields no conflict even with a much
newer remote version and timestamp. -/
theorem hasConflict_absent_or_unchanged_false_witness :
    hasConflict (some ⟨"n.md", "aaa", none⟩) (some ⟨"1", "T", none, some 1, some 0⟩)
        (some ⟨"1", "T", none, 99, some 99⟩) "aaa" = false :=
  hasConflict_absent_or_unchanged_false _ _ _ _
    (Or.inr (Or.inr (Or.inr ⟨⟨"n.md", "aaa", none⟩, rfl, rfl⟩)))

/-- Claim C8: with all records present and a changed hash, an absent stored
last-seen version or a zero remote version makes `hasConflict` skip the
version comparison entirely; the result is then exactly the timestamp
comparison, which is true only when both timestamps are present and the
remote one is strictly newer. -/
theorem hasConflict_version_guard (f : FileRecord) (p : PageRecord) (r : RemotePage)
    (h : String) (hne : h ≠ f.sha256)
    (hguard : p.lastSeenVersion = none ∨ r.version = 0) :
    hasConflict (some f) (some p) (some r) h =
      (match r.lastUpdated, p.lastSeenRemoteUpdatedAt with
       | some ru, some pu => decide (ru > pu)
       | _, _ => false) := by
  obtain ⟨pid, pt, pp, lsv, lsru⟩ := p
  obtain ⟨rid, rt, rp, rv, rlu⟩ := r
  rcases hguard with h1 | h1 <;> simp only at h1 <;> subst h1
  · cases rlu <;> cases lsru <;> simp [hasConflict, hne]
  · cases lsv <;> cases rlu <;> cases lsru <;> simp [hasConflict, hne]

/-- Claim C8 witness: a strictly larger remote version alone (stored
last-seen version absent, no timestamps) yields no conflict. -/
theorem hasConflict_version_guard_witness :
    hasConflict (some ⟨"n.md", "aaa", none⟩) (some ⟨"1", "T", none, none, none⟩)
        (some ⟨"1", "T", none, 5, none⟩) "bbb" = false :=
  hasConflict_version_guard ⟨"n.md", "aaa", none⟩ ⟨"1", "T", none, none, none⟩
    ⟨"1", "T", none, 5, none⟩ "bbb" (by decide) (Or.inl rfl)

/-- Claim C3 (counterexample): with path `P` bound to page id `X`, binding a
different path `Q` to `X` does not succeed: the `page_id UNIQUE` constraint
raises an integrity error, so the binding is never superseded. -/
theorem setBinding_supersede_cex :
    setBinding [("P", "X")] "Q" "X" =
        Except.error "UNIQUE constraint failed: bindings.page_id" ∧
      ("P", "X") ∈ [("P", "X")] ∧ "P" ≠ "Q" := by
  refine ⟨rfl, by simp, ?_⟩
  decide

/-- Claim C3 (amended): when path `P` is bound to page id `X`, calling
`setBinding Q X` for a different path `Q` fails with an integrity error
(the transaction rolls back, so `P` stays bound to `X`); the bijection
itself is nonetheless maintained, since every successful `setBinding` call
on a table with unique paths and unique page ids preserves page-id
uniqueness, so at no point are two paths bound to the same page id. -/
theorem setBinding_rebind_conflict :
    (∀ (bs : List (String × String)) (P Q X : String),
      (P, X) ∈ bs → P ≠ Q → ∃ e, setBinding bs Q X = Except.error e) ∧
    (∀ (bs : List (String × String)) (path pid : String) (bs' : List (String × String)),
      pathUnique bs → pageIdUnique bs → setBinding bs path pid = Except.ok bs' →
        pageIdUnique bs') := by
  constructor
  · intro bs P Q X hmem hne
    unfold setBinding
    cases hfind : bs.find? (fun e => decide (e.1 = Q)) with
    | some w =>
      have hany : bs.any (fun e => decide (e.1 ≠ Q) && decide (e.2 = X)) = true := by
        refine List.any_eq_true.mpr ⟨(P, X), hmem, ?_⟩
        simp [hne]
      rw [hany]
      exact ⟨_, rfl⟩
    | none =>
      have hany : bs.any (fun e => decide (e.2 = X)) = true := by
        refine List.any_eq_true.mpr ⟨(P, X), hmem, ?_⟩
        simp
      rw [hany]
      exact ⟨_, rfl⟩
  · intro bs path pid bs' hpath hpage hok
    unfold setBinding at hok
    cases hfind : bs.find? (fun e => decide (e.1 = path)) with
    | some w =>
      rw [hfind] at hok
      by_cases hany : bs.any (fun e => decide (e.1 ≠ path) && decide (e.2 = pid)) = true
      · rw [if_pos hany] at hok; cases hok
      · rw [if_neg hany] at hok
        cases hok
        have hno : ∀ e ∈ bs, ¬(e.1 ≠ path ∧ e.2 = pid) := by
          intro e he hcontra
          exact hany (List.any_eq_true.mpr ⟨e, he, by simp [hcontra.1, hcontra.2]⟩)
        rw [pageIdUnique, List.pairwise_map]
        have hboth : bs.Pairwise (fun a b => a.1 ≠ b.1 ∧ a.2 ≠ b.2) :=
          hpath.and hpage
        refine hboth.imp_of_mem ?_
        intro a b ha hb hab
        by_cases ha1 : a.1 = path <;> by_cases hb1 : b.1 = path <;>
          simp only [ha1, hb1, ite_true, ite_false]
        · exact absurd (ha1.trans hb1.symm) hab.1
        · have hb' := hno b hb
          simp only [ne_eq, not_and] at hb'
          intro hEq
          exact hb' hb1 hEq.symm
        · have ha' := hno a ha
          simp only [ne_eq, not_and] at ha'
          intro hEq
          exact ha' ha1 hEq
        · exact hab.2
    | none =>
      rw [hfind] at hok
      by_cases hany : bs.any (fun e => decide (e.2 = pid)) = true
      · rw [if_pos hany] at hok; cases hok
      · rw [if_neg hany] at hok
        cases hok
        rw [pageIdUnique, List.pairwise_append]
        refine ⟨hpage, by simp, ?_⟩
        intro a ha b hb
        simp only [List.mem_singleton] at hb
        subst hb
        intro hEq
        exact hany (List.any_eq_true.mpr ⟨a, ha, by simp [hEq]⟩)

/-- Claim C3 witness: the amended statement at the one-row table
`[(P, X)]` with the rebind attempt `Q ↦ X`, and at an insert into the
empty table preserving page-id uniqueness. -/
theorem setBinding_rebind_conflict_witness :
    (∃ e, setBinding [("P", "X")] "Q" "X" = Except.error e) ∧
      pageIdUnique [("Q", "X")] :=
  ⟨setBinding_rebind_conflict.1 [("P", "X")] "P" "Q" "X" (by simp) (by decide),
   setBinding_rebind_conflict.2 [] "Q" "X" [("Q", "X")]
     (by simp [pathUnique]) (by simp [pageIdUnique]) rfl⟩

/-- Claim C4: the client makes at most 5 total attempts; a first-attempt
HTTP status of 400 or above outside {429, 502, 503, 504} raises a
non-retryable error with no retry; if all 5 attempts fail transiently, the
loop stops after exactly 5 attempts and re-raises the last attempt's error
unchanged, still classified retryable; and a second attempt happens only
when the first raised a retryable error. -/
theorem requestWithRetry_policy :
    (∀ oracle, (requestWithRetry oracle).1 ≤ 5) ∧
    (∀ oracle c b, oracle 0 = Outcome.status c b → 400 ≤ c →
      c ≠ 429 → c ≠ 502 → c ≠ 503 → c ≠ 504 →
      ∃ m, requestWithRetry oracle = (1, Except.error (ClientError.permanent m))) ∧
    (∀ oracle, (∀ j, j < 5 → isTransient (oracle j) = true) →
      ∃ e, sendRequest (oracle 4) = Except.error e ∧ e.isRetryable = true ∧
        requestWithRetry oracle = (5, Except.error e)) ∧
    (∀ oracle, 1 < (requestWithRetry oracle).1 →
      ∃ e, sendRequest (oracle 0) = Except.error e ∧ e.isRetryable = true) := by
  refine ⟨fun oracle => attemptFrom_le oracle 5 0, ?_, ?_, ?_⟩
  · intro oracle c b h0 h400 h429 h502 h503 h504
    have hsend : sendRequest (oracle 0) =
        Except.error (ClientError.permanent ("HTTP " ++ toString c)) := by
      rw [h0]
      simp only [sendRequest]
      rw [if_neg (by tauto), if_pos h400]
    refine ⟨"HTTP " ++ toString c, ?_⟩
    unfold requestWithRetry attemptFrom
    rw [hsend]
    simp [ClientError.isRetryable]
  · intro oracle hall
    obtain ⟨e, he1, he2, he3⟩ := attemptFrom_all_transient oracle 5 0 (by omega)
      (by intro j hj; simpa using hall j hj)
    exact ⟨e, by simpa using he1, he2, he3⟩
  · intro oracle hgt
    cases hsend : sendRequest (oracle 0) with
    | ok resp =>
      exfalso
      have hone : requestWithRetry oracle = (1, Except.ok resp) := by
        unfold requestWithRetry attemptFrom
        rw [hsend]
      rw [hone] at hgt
      simp at hgt
    | error e =>
      refine ⟨e, rfl, ?_⟩
      by_cases hr : e.isRetryable = true
      · exact hr
      · exfalso
        have hrf : e.isRetryable = false := by simpa using hr
        have hone : requestWithRetry oracle = (1, Except.error e) := by
          unfold requestWithRetry attemptFrom
          rw [hsend]
          simp [hrf]
        rw [hone] at hgt
        simp at hgt

/-- Claim C4 witness: a constant 404 oracle fails permanently after one
attempt, and a constant 503 oracle exhausts all 5 attempts and re-raises
the retryable rate-limit error of the fifth attempt. -/
theorem requestWithRetry_policy_witness :
    (∃ m, requestWithRetry (fun _ => Outcome.status 404 "") =
        (1, Except.error (ClientError.permanent m))) ∧
    (∃ e, sendRequest ((fun _ => Outcome.status 503 "") 4) = Except.error e ∧
      e.isRetryable = true ∧
      requestWithRetry (fun _ => Outcome.status 503 "") = (5, Except.error e)) :=
  ⟨requestWithRetry_policy.2.1 (fun _ => Outcome.status 404 "") 404 "" rfl
      (by omega) (by omega) (by omega) (by omega) (by omega),
   requestWithRetry_policy.2.2.1 (fun _ => Outcome.status 503 "")
      (fun _ _ => rfl)⟩

/-- Claim C10: `update_labels` issues no remote request exactly when every
given label is the empty string (after deduplication nothing non-empty
remains); when a request is issued its payload is non-empty, duplicate-free,
and consists of global-prefixed entries whose names are exactly non-empty
labels from the input. -/
theorem updateLabels_request_iff (labels : List String) :
    (updateLabelsRequest labels = none ↔ ∀ l ∈ labels, l = "") ∧
    (∀ payload, updateLabelsRequest labels = some payload →
      payload ≠ [] ∧ payload.Nodup ∧
        (∀ q ∈ payload, q.1 = "global" ∧ q.2 ≠ "" ∧ q.2 ∈ labels) ∧
        (∀ l ∈ labels, l ≠ "" → ("global", l) ∈ payload)) := by
  constructor
  · unfold updateLabelsRequest
    by_cases hemp : (labels.dedup.filter (fun l => decide (l ≠ ""))).isEmpty = true
    · rw [if_pos hemp]
      simp only [true_iff]
      rw [List.isEmpty_iff, List.filter_eq_nil_iff] at hemp
      intro l hl
      have := hemp l (List.mem_dedup.mpr hl)
      simpa using this
    · rw [if_neg hemp]
      simp only [reduceCtorEq, false_iff, not_forall]
      rw [List.isEmpty_iff] at hemp
      obtain ⟨x, hx⟩ := List.exists_mem_of_ne_nil _ hemp
      have hx' := List.mem_filter.mp hx
      refine ⟨x, List.mem_dedup.mp hx'.1, by simpa using hx'.2⟩
  · intro payload hpay
    unfold updateLabelsRequest at hpay
    by_cases hemp : (labels.dedup.filter (fun l => decide (l ≠ ""))).isEmpty = true
    · rw [if_pos hemp] at hpay; cases hpay
    · rw [if_neg hemp] at hpay
      cases hpay
      rw [List.isEmpty_iff] at hemp
      refine ⟨by simpa using hemp, ?_, ?_, ?_⟩
      · refine List.Nodup.map ?_ (List.Nodup.filter _ labels.nodup_dedup)
        intro a b hab
        simpa using hab
      · intro q hq
        obtain ⟨l, hl, hql⟩ := List.mem_map.mp hq
        obtain ⟨hld, hlne⟩ := List.mem_filter.mp hl
        subst hql
        exact ⟨rfl, by simpa using hlne, List.mem_dedup.mp hld⟩
      · intro l hl hlne
        exact List.mem_map.mpr ⟨l,
          List.mem_filter.mpr ⟨List.mem_dedup.mpr hl, by simpa using hlne⟩, rfl⟩

/-- Claim C10 witness: the input `["x", "x", ""]` yields the single-entry
payload `[("global", "x")]`, which is non-empty, duplicate-free, globally
prefixed and drawn from the non-empty input labels. -/
theorem updateLabels_request_iff_witness :
    [("global", "x")] ≠ [] ∧ ([("global", "x")] : List (String × String)).Nodup ∧
      (∀ q ∈ [("global", "x")], q.1 = "global" ∧ q.2 ≠ "" ∧ q.2 ∈ ["x", "x", ""]) ∧
      (∀ l ∈ ["x", "x", ""], l ≠ "" → ("global", l) ∈ [("global", "x")]) :=
  (updateLabels_request_iff ["x", "x", ""]).2 [("global", "x")] rfl

/-- Helper: assigning a present key rewrites it in place, and lookup then
finds the new value. -/
theorem find?_mapAssign (key : String) (note : VaultNote) :
    ∀ m : List (String × VaultNote),
      m.any (fun e => decide (e.1 = key)) = true →
      (m.map (fun e => if e.1 = key then (key, note) else e)).find?
          (fun e => decide (e.1 = key)) = some (key, note) := by
  intro m
  induction m with
  | nil => simp
  | cons a t ih =>
    intro hany
    by_cases ha : a.1 = key
    · simp [List.find?_cons, ha]
    · rw [List.any_cons, decide_eq_false ha, Bool.false_or] at hany
      simp only [List.map_cons, if_neg ha]
      rw [List.find?_cons_of_neg _ (by simpa using ha)]
      exact ih hany

/-- Helper: assigning one key leaves lookups of every other key alone. -/
theorem find?_mapAssign_ne (key k : String) (note : VaultNote) (hne : key ≠ k) :
    ∀ m : List (String × VaultNote),
      (m.map (fun e => if e.1 = key then (key, note) else e)).find?
          (fun e => decide (e.1 = k)) = m.find? (fun e => decide (e.1 = k)) := by
  intro m
  induction m with
  | nil => simp
  | cons a t ih =>
    by_cases ha : a.1 = key
    · have hak : ¬(a.1 = k) := by rw [ha]; exact hne
      simp only [List.map_cons, if_pos ha]
      rw [List.find?_cons_of_neg _ (by simpa using hne),
        List.find?_cons_of_neg _ (by simpa using hak)]
      exact ih
    · by_cases hak : a.1 = k
      · simp only [List.map_cons, if_neg ha]
        rw [List.find?_cons_of_pos _ (by simpa using hak),
          List.find?_cons_of_pos _ (by simpa using hak)]
      · simp only [List.map_cons, if_neg ha]
        rw [List.find?_cons_of_neg _ (by simpa using hak),
          List.find?_cons_of_neg _ (by simpa using hak)]
        exact ih

/-- Helper: after `d[key] = note`, looking up `key` yields `note`. -/
theorem lookupTitle_insert_self (m : List (String × VaultNote)) (key : String)
    (note : VaultNote) :
    lookupTitle (insertTitle m key note) key = some note := by
  unfold insertTitle lookupTitle
  by_cases hany : m.any (fun e => decide (e.1 = key)) = true
  · rw [if_pos hany, find?_mapAssign key note m hany]
    rfl
  · rw [if_neg hany, List.find?_append]
    have hnone : m.find? (fun e => decide (e.1 = key)) = none := by
      rw [List.find?_eq_none]
      intro e he
      intro hdec
      exact hany (List.any_eq_true.mpr ⟨e, he, hdec⟩)
    rw [hnone]
    simp

/-- Helper: after `d[key] = note`, every other key looks up as before. -/
theorem lookupTitle_insert_ne (m : List (String × VaultNote)) (key k : String)
    (note : VaultNote) (hne : key ≠ k) :
    lookupTitle (insertTitle m key note) k = lookupTitle m k := by
  unfold insertTitle lookupTitle
  by_cases hany : m.any (fun e => decide (e.1 = key)) = true
  · rw [if_pos hany, find?_mapAssign_ne key k note hne m]
  · rw [if_neg hany, List.find?_append]
    cases hm : m.find? (fun e => decide (e.1 = k)) with
    | some w => rfl
    | none => simp [List.find?_cons, hne]

/-- Helper: looking up `k` in the dict built by folding the notes in order
returns the LAST note whose normalized title is `k`, falling back to the
initial dict. -/
theorem lookupTitle_build (notes : List VaultNote) :
    ∀ (m : List (String × VaultNote)) (k : String),
      lookupTitle
          (notes.foldl (fun acc n => insertTitle acc (normalizeTitle n.title) n) m) k =
        match (notes.filter (fun n => decide (normalizeTitle n.title = k))).getLast? with
        | some n => some n
        | none => lookupTitle m k := by
  induction notes with
  | nil => intro m k; simp
  | cons n rest ih =>
    intro m k
    rw [List.foldl_cons, ih (insertTitle m (normalizeTitle n.title) n) k]
    by_cases hk : normalizeTitle n.title = k
    · rw [List.filter_cons_of_pos (by simpa using hk)]
      cases hfl : rest.filter (fun x => decide (normalizeTitle x.title = k)) with
      | nil =>
        subst hk
        simp [lookupTitle_insert_self]
      | cons y ys =>
        have hne : (y :: ys : List VaultNote) ≠ [] := by simp
        obtain ⟨z, hz⟩ := Option.isSome_iff_exists.mp (List.getLast?_isSome.mpr hne)
        rw [hz, List.getLast?_cons_cons, hz]
    · rw [List.filter_cons_of_neg (by simpa using hk),
        lookupTitle_insert_ne m (normalizeTitle n.title) k n hk]

/-- Claim C9: `get_by_title` on the index built from a note collection
returns exactly the last note, in input order, whose title normalizes
(case-insensitively, whitespace-collapsed) to the looked-up title: later
notes shadow earlier ones with the same normalized title, and the earlier
notes are unreachable by title lookup.  The wikilink replacer of
`rewrite_links` resolves targets through this very lookup. -/
theorem linkIndex_title_last_wins (notes : List VaultNote) (t : String) :
    getByTitle (buildByTitle notes) t =
      (notes.filter
        (fun n => decide (normalizeTitle n.title = normalizeTitle t))).getLast? := by
  unfold getByTitle buildByTitle
  rw [lookupTitle_build notes [] (normalizeTitle t)]
  cases hlast : (notes.filter
      (fun n => decide (normalizeTitle n.title = normalizeTitle t))).getLast? with
  | some x => rfl
  | none => simp [lookupTitle]

/-- Helper: cache lookup after an insert. -/
theorem cacheLookup_insert (s : PHMState) (k k0 : String × Option String) (v : String) :
    cacheLookup (cacheInsert s k v) k0 = if k0 = k then some v else cacheLookup s k0 := by
  unfold cacheLookup cacheInsert
  by_cases h : k0 = k
  · rw [if_pos h]
    rw [List.find?_cons_of_pos _ (by simpa using h.symm)]
    rfl
  · rw [if_neg h]
    rw [List.find?_cons_of_neg _ (by simpa using fun he => h he.symm)]

/-- Helper: a cache hit returns the cached id with no state change, no
remote call and no write. -/
theorem ensurePage_cached (env : ClientEnv) (s : PHMState) (t : String)
    (p : Option String) (d : Bool) (i : String)
    (h : cacheLookup s (t, p) = some i) :
    ensurePage env s t p d = ⟨i, s, 0, []⟩ := by
  unfold ensurePage
  rw [h]

/-- Helper: after any `_ensure_page` call the key is cached with the
returned id. -/
theorem ensurePage_caches (env : ClientEnv) (s : PHMState) (t : String)
    (p : Option String) (d : Bool) :
    cacheLookup (ensurePage env s t p d).st (t, p) = some (ensurePage env s t p d).pid := by
  unfold ensurePage
  cases hc : cacheLookup s (t, p) with
  | some i => exact hc
  | none =>
    by_cases hd : d = true
    · rw [hd]
      simp only [if_pos]
      rw [cacheLookup_insert]
      simp
    · replace hd : d = false := by simpa using hd
      rw [hd]
      simp only [Bool.false_eq_true, if_neg, if_false]
      cases hf : env.findPage t p with
      | some existing =>
        simp only
        rw [cacheLookup_insert]
        simp
      | none =>
        simp only
        rw [cacheLookup_insert]
        simp

/-- Helper: `_ensure_page` never removes or rewrites a cached entry. -/
theorem ensurePage_mono (env : ClientEnv) (s : PHMState) (t : String)
    (p : Option String) (d : Bool) (k : String × Option String) (i : String)
    (h : cacheLookup s k = some i) :
    cacheLookup (ensurePage env s t p d).st k = some i := by
  unfold ensurePage
  cases hc : cacheLookup s (t, p) with
  | some j => exact h
  | none =>
    have hk : k ≠ (t, p) := by
      intro he
      rw [he] at h
      rw [h] at hc
      cases hc
    by_cases hd : d = true
    · rw [hd]
      simp only [if_pos]
      rw [cacheLookup_insert, if_neg hk]
      exact h
    · replace hd : d = false := by simpa using hd
      rw [hd]
      simp only [Bool.false_eq_true, if_neg, if_false]
      cases hf : env.findPage t p with
      | some existing =>
        simp only
        rw [cacheLookup_insert, if_neg hk]
        exact h
      | none =>
        simp only
        rw [cacheLookup_insert, if_neg hk]
        exact h

/-- Helper: `_ensure_page` does not touch the memoized root page. -/
theorem ensurePage_rootPage (env : ClientEnv) (s : PHMState) (t : String)
    (p : Option String) (d : Bool) :
    (ensurePage env s t p d).st.rootPage = s.rootPage := by
  unfold ensurePage
  cases hc : cacheLookup s (t, p) with
  | some j => rfl
  | none =>
    by_cases hd : d = true
    · rw [hd]; rfl
    · replace hd : d = false := by simpa using hd
      rw [hd]
      simp only [Bool.false_eq_true, if_neg, if_false]
      cases hf : env.findPage t p with
      | some existing => rfl
      | none => rfl

/-- Helper: the chain loop never removes or rewrites a cached entry. -/
theorem chainFold_mono (env : ClientEnv) (d : Bool) :
    ∀ (chain : List String) (s : PHMState) (p : Option String)
      (k : String × Option String) (i : String),
      cacheLookup s k = some i →
      cacheLookup (chainFold env s p chain d).st k = some i := by
  intro chain
  induction chain with
  | nil => intro s p k i h; exact h
  | cons t rest ih =>
    intro s p k i h
    exact ih (ensurePage env s t p d).st (some (ensurePage env s t p d).pid) k i
      (ensurePage_mono env s t p d k i h)

/-- Helper: the chain loop does not touch the memoized root page. -/
theorem chainFold_rootPage (env : ClientEnv) (d : Bool) :
    ∀ (chain : List String) (s : PHMState) (p : Option String),
      (chainFold env s p chain d).st.rootPage = s.rootPage := by
  intro chain
  induction chain with
  | nil => intro s p; rfl
  | cons t rest ih =>
    intro s p
    rw [show (chainFold env s p (t :: rest) d).st =
      (chainFold env (ensurePage env s t p d).st (some (ensurePage env s t p d).pid)
        rest d).st from rfl]
    rw [ih, ensurePage_rootPage]

/-- Helper: re-running a resolved chain from its own final state hits the
cache at every step: same ids, unchanged state, zero remote calls, no
writes. -/
theorem chainFold_stable (env : ClientEnv) (d : Bool) :
    ∀ (chain : List String) (s : PHMState) (p : Option String),
      chainFold env (chainFold env s p chain d).st p chain d =
        ⟨(chainFold env s p chain d).pid, (chainFold env s p chain d).st, 0, []⟩ := by
  intro chain
  induction chain with
  | nil => intro s p; rfl
  | cons t rest ih =>
    intro s p
    have hr2st : (chainFold env s p (t :: rest) d).st =
        (chainFold env (ensurePage env s t p d).st
          (some (ensurePage env s t p d).pid) rest d).st := rfl
    have hr2pid : (chainFold env s p (t :: rest) d).pid =
        (chainFold env (ensurePage env s t p d).st
          (some (ensurePage env s t p d).pid) rest d).pid := rfl
    have hcached : cacheLookup (chainFold env s p (t :: rest) d).st (t, p) =
        some (ensurePage env s t p d).pid := by
      rw [hr2st]
      exact chainFold_mono env d rest (ensurePage env s t p d).st
        (some (ensurePage env s t p d).pid) (t, p) (ensurePage env s t p d).pid
        (ensurePage_caches env s t p d)
    have hstep := ensurePage_cached env (chainFold env s p (t :: rest) d).st t p d
      (ensurePage env s t p d).pid hcached
    show (let r := ensurePage env (chainFold env s p (t :: rest) d).st t p d
          let r2 := chainFold env r.st (some r.pid) rest d
          (⟨r2.pid, r2.st, r.calls + r2.calls, r.effects ++ r2.effects⟩ : StepOut)) = _
    rw [hstep]
    simp only
    rw [hr2st, ih (ensurePage env s t p d).st (some (ensurePage env s t p d).pid)]
    simp
    exact hr2pid.symm

/-- Helper: a memoized root is returned as-is with no call and no write. -/
theorem ensureRoot_memo (env : ClientEnv) (settings : Settings) (s : PHMState)
    (d : Bool) (r : RemotePage) (h : s.rootPage = some r) :
    ensureRoot env settings s d = ⟨r, s, 0, []⟩ := by
  unfold ensureRoot
  rw [h]

/-- Helper: after `_ensure_root` the root page is memoized. -/
theorem ensureRoot_sets (env : ClientEnv) (settings : Settings) (s : PHMState) (d : Bool) :
    (ensureRoot env settings s d).st.rootPage = some (ensureRoot env settings s d).page := by
  unfold ensureRoot
  cases h : s.rootPage with
  | some r => exact h
  | none =>
    by_cases hd : d = true
    · rw [hd]; rfl
    · replace hd : d = false := by simpa using hd
      rw [hd]; rfl

/-- Claim C5: within one run, `_ensure_page` resolved a second time for the
same `(title, parentId)` pair returns the same page id with no state
change, no remote call and no write; consequently `resolve_parent` called
twice for the same note in one dry run returns the same (synthetic) parent
id both times, the second call issuing no remote call. -/
theorem hierarchy_resolve_idempotent :
    (∀ (env : ClientEnv) (s : PHMState) (t : String) (p : Option String) (d : Bool),
      ensurePage env (ensurePage env s t p d).st t p d =
        ⟨(ensurePage env s t p d).pid, (ensurePage env s t p d).st, 0, []⟩) ∧
    (∀ (env : ClientEnv) (settings : Settings) (s : PHMState) (note : VaultNote),
      (resolveParent env settings (resolveParent env settings s note true).st
            note true).pid =
          (resolveParent env settings s note true).pid ∧
        (resolveParent env settings (resolveParent env settings s note true).st
            note true).calls = 0) := by
  constructor
  · intro env s t p d
    exact ensurePage_cached env (ensurePage env s t p d).st t p d
      (ensurePage env s t p d).pid (ensurePage_caches env s t p d)
  · intro env settings s note
    have hroot : (chainFold env (ensureRoot env settings s true).st
        (some (ensureRoot env settings s true).page.pageId)
        (titleChain note) true).st.rootPage = some (ensureRoot env settings s true).page := by
      rw [chainFold_rootPage, ensureRoot_sets]
    have hmemo := ensureRoot_memo env settings
      (chainFold env (ensureRoot env settings s true).st
        (some (ensureRoot env settings s true).page.pageId) (titleChain note) true).st
      true (ensureRoot env settings s true).page hroot
    have hstable := chainFold_stable env true (titleChain note)
      (ensureRoot env settings s true).st
      (some (ensureRoot env settings s true).page.pageId)
    have hsecond : resolveParent env settings
        (resolveParent env settings s note true).st note true =
        ⟨(resolveParent env settings s note true).pid,
          (resolveParent env settings s note true).st, 0, []⟩ := by
      show (let root := ensureRoot env settings
              (chainFold env (ensureRoot env settings s true).st
                (some (ensureRoot env settings s true).page.pageId)
                (titleChain note) true).st true
            let r := chainFold env root.st (some root.page.pageId) (titleChain note) true
            (⟨r.pid, r.st, root.calls + r.calls, root.effects ++ r.effects⟩ : StepOut)) = _
      rw [hmemo]
      simp only
      rw [hstable]
      rfl
    rw [hsecond]
    exact ⟨rfl, rfl⟩

/-- Helper: a dry-run `_ensure_page` performs no write. -/
theorem ensurePage_dry_effects (env : ClientEnv) (s : PHMState) (t : String)
    (p : Option String) : (ensurePage env s t p true).effects = [] := by
  unfold ensurePage
  cases hc : cacheLookup s (t, p) with
  | some i => rfl
  | none => rfl

/-- Helper: a dry-run `_ensure_root` performs no write. -/
theorem ensureRoot_dry_effects (env : ClientEnv) (settings : Settings) (s : PHMState) :
    (ensureRoot env settings s true).effects = [] := by
  unfold ensureRoot
  cases h : s.rootPage with
  | some r => rfl
  | none => rfl

/-- Helper: a dry-run chain resolution performs no write. -/
theorem chainFold_dry_effects (env : ClientEnv) :
    ∀ (chain : List String) (s : PHMState) (p : Option String),
      (chainFold env s p chain true).effects = [] := by
  intro chain
  induction chain with
  | nil => intro s p; rfl
  | cons t rest ih =>
    intro s p
    show (ensurePage env s t p true).effects ++
        (chainFold env (ensurePage env s t p true).st
          (some (ensurePage env s t p true).pid) rest true).effects = []
    rw [ensurePage_dry_effects, ih]
    rfl

/-- Helper: a dry-run `resolve_parent` performs no write. -/
theorem resolveParent_dry_effects (env : ClientEnv) (settings : Settings)
    (s : PHMState) (note : VaultNote) :
    (resolveParent env settings s note true).effects = [] := by
  show (ensureRoot env settings s true).effects ++
      (chainFold env (ensureRoot env settings s true).st
        (some (ensureRoot env settings s true).page.pageId)
        (titleChain note) true).effects = []
  rw [ensureRoot_dry_effects, chainFold_dry_effects]
  rfl

/-- Claim C6: a dry-run `_process_note` performs no remote write (no
create-page, update-page, update-labels or upload-attachment) and no state
write (no file upsert, page upsert or binding write) — its effect list is
empty, so remote and durable local state are untouched — while still
producing a plan entry of the run-mode-independent shape for the note. -/
theorem processNote_dryRun_no_writes (env : ClientEnv) (pipe : Pipeline)
    (settings : Settings) (store : StoreState) (s : PHMState) (note : VaultNote) :
    (processNote env pipe settings store s note true).effects = [] ∧
      (processNote env pipe settings store s note true).entry.note = note := by
  unfold processNote
  split
  · exact ⟨rfl, rfl⟩
  · simp only
    split
    · split
      · exact ⟨resolveParent_dry_effects env settings s note, rfl⟩
      · split
        · exact ⟨resolveParent_dry_effects env settings s note, rfl⟩
        · refine ⟨?_, rfl⟩
          simp [updatePageE, resolveParent_dry_effects]
    · refine ⟨?_, rfl⟩
      simp [createPageE, resolveParent_dry_effects]

/-- Claim C7 (counterexample): a concrete real-mode run in which the target
page resolves, the stored file record exists and its hash equals the
note's hash; the engine does produce a SKIP entry, but its reason is the
string "No changes detected" rather than "unchanged", and processing the
note does perform state writes (the page upserts of parent-hierarchy
resolution), so the claim's reason and its no-write clause both fail as
stated. -/
theorem processNote_unchanged_skip_cex :
    (processNote cexEnv cexPipe cexSettings cexStore cexPHM cexNote false).entry.action =
        SyncAction.skip ∧
      (lookupTargetPage cexEnv cexStore cexNote
          (resolveParent cexEnv cexSettings cexPHM cexNote false).pid).1 = some cexTarget ∧
      getFile cexStore cexNote.relativePath = some cexFile ∧
      cexFile.sha256 = cexNote.sha256 ∧
      (processNote cexEnv cexPipe cexSettings cexStore cexPHM cexNote false).entry.reason ≠
        some "unchanged" ∧
      (processNote cexEnv cexPipe cexSettings cexStore cexPHM cexNote false).effects ≠ [] := by
  refine ⟨rfl, rfl, rfl, rfl, ?_, ?_⟩ <;> decide

/-- Claim C7 (amended): for every non-excluded note whose target page
resolves and whose stored file record's hash equals the note's current
hash, the engine produces a SKIP plan entry with reason "No changes
detected" targeting the resolved page, records no conflict, and performs
no write beyond those already made by parent-hierarchy resolution (in
particular no file upsert, no binding write, and no remote write for the
note itself), in real and dry runs alike. -/
theorem processNote_unchanged_skip (env : ClientEnv) (pipe : Pipeline)
    (settings : Settings) (store : StoreState) (s : PHMState) (note : VaultNote)
    (dryRun : Bool) (target : RemotePage) (f : FileRecord)
    (hexcl : note.frontmatter.exclude = false)
    (htarget : (lookupTargetPage env store note
        (resolveParent env settings s note dryRun).pid).1 = some target)
    (hfile : getFile store note.relativePath = some f)
    (hsha : f.sha256 = note.sha256) :
    (processNote env pipe settings store s note dryRun).entry.action = SyncAction.skip ∧
      (processNote env pipe settings store s note dryRun).entry.reason =
        some "No changes detected" ∧
      (processNote env pipe settings store s note dryRun).entry.targetPageId =
        some target.pageId ∧
      (processNote env pipe settings store s note dryRun).conflict = none ∧
      (processNote env pipe settings store s note dryRun).effects =
        (resolveParent env settings s note dryRun).effects := by
  have hnc : hasConflict (some f) (getPageRec store target.pageId) (some target)
      note.sha256 = false :=
    hasConflict_of_hash_eq f _ _ note.sha256 hsha.symm
  simp only [processNote]
  rw [hexcl]
  simp only [Bool.false_eq_true, if_false]
  rw [htarget]
  simp only
  rw [hfile, hnc]
  simp only [Bool.false_eq_true, if_false]
  have hdec : decide (f.sha256 = note.sha256) = true := decide_eq_true hsha
  simp [hdec]

/-- Claim C7 witness: the amended statement at the concrete scenario above
(real mode): SKIP, reason "No changes detected", target `X`, no conflict,
and only the hierarchy-resolution writes. -/
theorem processNote_unchanged_skip_witness :
    (processNote cexEnv cexPipe cexSettings cexStore cexPHM cexNote false).entry.action =
        SyncAction.skip ∧
      (processNote cexEnv cexPipe cexSettings cexStore cexPHM cexNote false).entry.reason =
        some "No changes detected" ∧
      (processNote cexEnv cexPipe cexSettings cexStore cexPHM cexNote
          false).entry.targetPageId = some cexTarget.pageId ∧
      (processNote cexEnv cexPipe cexSettings cexStore cexPHM cexNote false).conflict =
        none ∧
      (processNote cexEnv cexPipe cexSettings cexStore cexPHM cexNote false).effects =
        (resolveParent cexEnv cexSettings cexPHM cexNote false).effects :=
  processNote_unchanged_skip cexEnv cexPipe cexSettings cexStore cexPHM cexNote false
    cexTarget cexFile rfl rfl rfl rfl

end O2C
